import Mathlib

/-!
Verification development for the ai-cafe Slack bot
(`claude-slack-bot.py` and `artifact.py`).

Python strings are modelled as `List Char` (`PyStr`); Python values that can
result from `ast.literal_eval` are modelled by the inductive `PyVal`; Python
dicts used as directive maps are modelled as insertion-ordered association
lists (`Config`).  Calls to external collaborators (`ast.literal_eval`, the
Slack attachment/download machinery, `files_upload_v2`) are modelled as
explicit function arguments ("oracles"), so every embedded function below is a
direct translation of the corresponding Python function, with the oracle
standing for the library call it makes.
-/

namespace AICafe

/-- Python `str` modelled as a list of characters. -/
abbrev PyStr := List Char

/-- The whitespace characters stripped by Python `str.strip()` and matched by
the regex class `\s` (ASCII fragment; the unicode extras are irrelevant
here). -/
def pyWs (c : Char) : Bool :=
  c == ' ' || c == '\t' || c == '\n' || c == '\r' || c == '\x0b' || c == '\x0c'

/-- Python `str.lstrip()`. -/
def lstrip (l : PyStr) : PyStr := l.dropWhile pyWs

/-- Python `str.rstrip()`. -/
def rstrip (l : PyStr) : PyStr := (l.reverse.dropWhile pyWs).reverse

/-- Python `str.strip()`. -/
def pyStrip (l : PyStr) : PyStr := lstrip (rstrip l)

/-- Values producible by `ast.literal_eval` on the directive-block body
(floats/bytes/complex omitted: no claim depends on them). -/
inductive PyVal where
  | str (s : PyStr)
  | int (n : Int)
  | bool (b : Bool)
  | pynone
  | dict (entries : List (PyVal × PyVal))
  | set (elems : List PyVal)
  | tuple (elems : List PyVal)
  | list (elems : List PyVal)

mutual
/-- Python `==` on the values above.  `True == 1` and `False == 0` hold, as in
Python; tuples and lists compare elementwise.  Sets and dicts are compared
structurally (they are unhashable resp. never used as dict keys here, so this
case is never exercised as a key comparison). -/
def pyEq : PyVal → PyVal → Bool
  | .str a, .str b => a == b
  | .int a, .int b => a == b
  | .bool a, .bool b => a == b
  | .bool a, .int n => (if a then (1 : Int) else 0) == n
  | .int n, .bool a => n == (if a then (1 : Int) else 0)
  | .pynone, .pynone => true
  | .tuple a, .tuple b => pyEqList a b
  | .list a, .list b => pyEqList a b
  | _, _ => false

def pyEqList : List PyVal → List PyVal → Bool
  | [], [] => true
  | a :: l1, b :: l2 => pyEq a b && pyEqList l1 l2
  | _, _ => false
end

/-- Python truthiness (`bool(v)`) for the values above. -/
def pyTruthy : PyVal → Bool
  | .str s => !s.isEmpty
  | .int n => n != 0
  | .bool b => b
  | .pynone => false
  | .dict e => !e.isEmpty
  | .set e => !e.isEmpty
  | .tuple e => !e.isEmpty
  | .list e => !e.isEmpty

/-- A Python dict in insertion order, as used for the directive map. -/
abbrev Config := List (PyVal × PyVal)

/-- `d.get(k)`: first (unique) entry whose key is `==` to `k`. -/
def cfgGet : Config → PyVal → Option PyVal
  | [], _ => none
  | (k0, v0) :: rest, k => if pyEq k0 k then some v0 else cfgGet rest k

/-- Truthiness of `d.get(k)` (`None` when the key is absent). -/
def cfgTruthy (cfg : Config) (k : PyVal) : Bool :=
  match cfgGet cfg k with
  | none => false
  | some v => pyTruthy v

/-- `d[k] = v`: replace the value of the first matching key in place
(keeping the originally inserted key, as Python does), else append. -/
def dictSet : Config → PyVal → PyVal → Config
  | [], k, v => [(k, v)]
  | (k0, v0) :: rest, k, v =>
    if pyEq k0 k then (k0, v) :: rest else (k0, v0) :: dictSet rest k v

/-- `d.update(other)` for a dict argument: set each entry in order. -/
def dictUpdateAll (cfg : Config) (entries : List (PyVal × PyVal)) : Config :=
  entries.foldl (fun c kv => dictSet c kv.1 kv.2) cfg

/-- Errors that `dict.update` raises on a non-dict argument:
a non-iterable element raises `TypeError`, an iterable element whose length is
not 2 raises `ValueError`. -/
inductive UpdErr where
  | typeErr
  | valueErr

/-- Interpreting one element of a key/value sequence passed to `dict.update`:
pairs (2-element tuples/lists, 2-character strings) are accepted; other
iterables of the wrong length raise `ValueError`; non-iterables raise
`TypeError`.  Nested sets/dicts cannot occur inside a `literal_eval` set
(unhashable) and are mapped to `TypeError` for totality. -/
def pairOf : PyVal → Except UpdErr (PyVal × PyVal)
  | .tuple [a, b] => .ok (a, b)
  | .tuple _ => .error .valueErr
  | .list [a, b] => .ok (a, b)
  | .list _ => .error .valueErr
  | .str [a, b] => .ok (.str [a], .str [b])
  | .str _ => .error .valueErr
  | .set _ => .error .typeErr
  | .dict _ => .error .typeErr
  | _ => .error .typeErr

/-- `d.update(seq)` over a sequence of would-be pairs: elements are processed
in order, mutating the dict as it goes; on a bad element the error is raised
with the dict left in its partially updated state. -/
def seqUpdate : Config → List PyVal → Config × Option UpdErr
  | cfg, [] => (cfg, none)
  | cfg, v :: rest =>
    match pairOf v with
    | .ok (k, val) => seqUpdate (dictSet cfg k val) rest
    | .error e => (cfg, some e)

/-- `config.update(config2)` for an arbitrary `literal_eval` result.
Reachable arguments are dicts and sets only (the evaluated text always starts
with a brace); the other cases are modelled for totality. -/
def dictUpdate (cfg : Config) : PyVal → Config × Option UpdErr
  | .dict entries => (dictUpdateAll cfg entries, none)
  | .set elems => seqUpdate cfg elems
  | .list elems => seqUpdate cfg elems
  | .tuple elems => seqUpdate cfg elems
  | .str cs => seqUpdate cfg (cs.map (fun c => .str [c]))
  | _ => (cfg, some .typeErr)

/-- The bot mention token `<@BOT_USER_ID>`. -/
def mentionTok (botId : PyStr) : PyStr := '<' :: '@' :: (botId ++ ['>'])

/-- The public-visibility marker `@public`. -/
def publicTok : PyStr := '@' :: "public".data

/-- Directive-map key `is_bot_mention`. -/
def kIsBotMention : PyVal := .str "is_bot_mention".data

/-- Directive-map key `is_public`. -/
def kIsPublic : PyVal := .str "is_public".data

/-- Directive-map key `claude` (the model-invocation kill-switch). -/
def kClaude : PyVal := .str "claude".data

/-- The prefix-stripping loop of `parse_config_block`: repeatedly strip a
leading bot-mention token (setting `is_bot_mention`) or a leading `@public`
token (setting `is_public`) from the stripped text, until neither matches.
The invariant is that `t` is already stripped.  Each iteration removes at
least one character, so fuel `text.length + 1` (supplied by `stripLead`)
never runs out; the fuel-0 case is unreachable. -/
def stripLoop : Nat → PyStr → PyStr → Config → PyStr × Config
  | 0, _, t, cfg => (t, cfg)
  | fuel + 1, botId, t, cfg =>
    if (mentionTok botId).isPrefixOf t then
      stripLoop fuel botId (pyStrip (t.drop (mentionTok botId).length))
        (dictSet cfg kIsBotMention (.bool true))
    else if publicTok.isPrefixOf t then
      stripLoop fuel botId (pyStrip (t.drop publicTok.length))
        (dictSet cfg kIsPublic (.bool true))
    else (t, cfg)

/-- The `while True` prefix loop of `parse_config_block`, starting from the
stripped input text with an empty directive map. -/
def stripLead (botId : PyStr) (text : PyStr) : PyStr × Config :=
  stripLoop (text.length + 1) botId (pyStrip text) []

/-- Helper for the regex `{{(.+?)}}`: find the first occurrence of a doubled
closing brace and split there (non-greedy match). -/
def searchClose : PyStr → Option (PyStr × PyStr)
  | [] => none
  | [_] => none
  | c :: d :: rest =>
    if c = '\x7d' ∧ d = '\x7d' then some ([], rest)
    else
      match searchClose (d :: rest) with
      | some (body, tail) => some (c :: body, tail)
      | none => none

/-- The regex body match: at least one character, then the first `\x7d\x7d`.
Returns the body and the text after the doubled closing brace. -/
def splitClose : PyStr → Option (PyStr × PyStr)
  | [] => none
  | c :: rest =>
    match searchClose rest with
    | some (body, tail) => some (c :: body, tail)
    | none => none

/-- Whether a string contains a doubled closing brace (used to state
well-formedness of a directive-block body: the regex must find the closing
`\x7d\x7d` exactly where the block ends). -/
def hasBB : PyStr → Bool
  | c :: d :: rest => (c == '\x7d' && d == '\x7d') || hasBB (d :: rest)
  | _ => false

/-- `re.match(r'^\s*{{(.+?)}}\s*(.*)', text, re.DOTALL)`: skip leading
whitespace, require a doubled opening brace, take a non-empty minimal body up
to the first doubled closing brace, skip whitespace, and return the body and
the rest. -/
def matchConfigBlock (text : PyStr) : Option (PyStr × PyStr) :=
  match lstrip text with
  | '\x7b' :: '\x7b' :: rest =>
    match splitClose rest with
    | some (body, tail) => some (body, lstrip tail)
    | none => none
  | _ => none

/-- Exceptions escaping `parse_config_block` (its `except` clause catches only
`SyntaxError` and `ValueError`, so a `TypeError` from `config.update`
propagates to the caller). -/
inductive PyExn where
  | typeErr

/-- Errors raised by `ast.literal_eval` itself, both caught by
`parse_config_block`. -/
inductive LitErr where
  | synErr
  | valueErr

/-- `ClaudeBot.parse_config_block`.  `evalLit` is the oracle for the library
call `ast.literal_eval` on the re-braced directive body.  Note that the guard
`if not isinstance(config, dict)` in the source tests `config` — which is
always a dict — rather than the evaluated `config2`, so it never fires and is
not represented here; consequently a non-dict `literal_eval` result flows
into `config.update`, whose `TypeError` is not caught. -/
def parse_config_block (evalLit : PyStr → Except LitErr PyVal) (botId : PyStr)
    (text : PyStr) : Except PyExn (PyStr × Config) :=
  match stripLead botId text with
  | (t, config) =>
    match matchConfigBlock t with
    | none => .ok (pyStrip t, config)
    | some (body, remaining) =>
      match evalLit ('\x7b' :: body ++ ['\x7d']) with
      | .error _ => .ok (pyStrip t, config)
      | .ok config2 =>
        match dictUpdate config config2 with
        | (cfg2, none) => .ok (pyStrip remaining, cfg2)
        | (cfg2, some .valueErr) => .ok (pyStrip t, cfg2)
        | (_, some .typeErr) => .error .typeErr

/-- The family of input texts described by claim C5: optional bot-mention and
`@public` prefix tokens (each followed by a space), then a doubled-brace
directive block, then the trailing message text. -/
def mkText (m p : Bool) (botId body trailing : PyStr) : PyStr :=
  (if m then mentionTok botId ++ [' '] else [])
    ++ (if p then publicTok ++ [' '] else [])
    ++ '\x7b' :: '\x7b' :: (body ++ '\x7d' :: '\x7d' :: trailing)

/-- The directive map built by the prefix-stripping phase alone. -/
def structFlags (m p : Bool) : Config :=
  (if m then [(kIsBotMention, PyVal.bool true)] else [])
    ++ (if p then [(kIsPublic, PyVal.bool true)] else [])

/-- The value of the last entry of `entries` whose key is `==` to `k` (the
binding a Python dict built from `entries` would hold). -/
def lastLookup (entries : List (PyVal × PyVal)) (k : PyVal) : Option PyVal :=
  cfgGet entries.reverse k

/-- The sentinel text posted when a model response overflowed to a file. -/
def LONGRESPONSE : PyStr :=
  "Response was too long for Slack. See attached llm_response.txt".data

/-- The marker appended by the truncation fallback of
`handle_large_response`. -/
def TRUNCMARK : PyStr := ("\n... [Response truncated]").data

/-- An opaque Slack file reference. -/
abbrev FileRef := Nat

/-- `handle_large_response`.  `upload` is the outcome of the collaborator
call `upload_snippet`, which itself catches any upload exception and returns
`None`; so the upload outcome is modelled as an `Option` and no failure can
propagate. -/
def handle_large_response (upload : Option FileRef) (text : PyStr) :
    PyStr × Option FileRef :=
  if text.length ≤ 3000 then (text, none)
  else
    match upload with
    | some f => (LONGRESPONSE, some f)
    | none => (text.take 2950 ++ TRUNCMARK, none)

/-- A Slack display block, as far as the two reconstruction functions inspect
it: a `section` block carries `block["text"]["text"]`; any other block type
is only compared against `"section"` and `"divider"`. -/
inductive Block where
  | sec (text : PyStr)
  | divider
  | other
  deriving DecidableEq

/-- `reconstruct_from_slackmsg` (claude-slack-bot.py): collect the texts of
all section blocks, skipping those that start with the overflow sentinel, and
join them with newlines.  No artifact re-wrapping happens here. -/
def reconstruct_from_slackmsg (blocks : List Block) : PyStr :=
  List.intercalate ['\n']
    (blocks.filterMap (fun b =>
      match b with
      | .sec t => if LONGRESPONSE.isPrefixOf t then none else some t
      | _ => none))

/-- The character class `\w` of the fence regex (ASCII fragment). -/
def isWordChar (c : Char) : Bool := c.isAlphanum || c == '_'

/-- Find the first occurrence of a newline followed by a triple backtick and
split there, dropping the four matched characters (the non-greedy
`(.*?)\n` + closing fence of the regex). -/
def splitNlFence : PyStr → Option (PyStr × PyStr)
  | [] => none
  | c :: rest =>
    if ("\n```".data).isPrefixOf (c :: rest) then some ([], (c :: rest).drop 4)
    else
      match splitNlFence rest with
      | some (body, tail) => some (c :: body, tail)
      | none => none

/-- `re.match(r'```(\w*)\n(.*?)\n```', text, re.DOTALL)`: a triple backtick,
a greedy run of word characters (the fence label), a newline, then a minimal
body up to the first newline+fence.  The match is not anchored at the end, so
trailing text after the closing fence is ignored.  Returns the label and the
body. -/
def matchFence (t : PyStr) : Option (PyStr × PyStr) :=
  if ("```".data).isPrefixOf t then
    match (t.drop 3).dropWhile isWordChar with
    | '\n' :: rest =>
      match splitNlFence rest with
      | some (body, _) => some ((t.drop 3).takeWhile isWordChar, body)
      | none => none
    | _ => none
  else none

/-- The artifact type inferred from a fence label in
`ArtifactHandler.reconstruct_artifacts`. -/
def typeForLang (lang : PyStr) : PyStr :=
  if lang = "html".data then "text/html".data
  else if lang = "xml".data then "image/svg+xml".data
  else if lang = "mermaid".data then "application/vnd.ant.mermaid".data
  else "application/vnd.ant.code".data

/-- The synthetic artifact tag emitted by
`ArtifactHandler.reconstruct_artifacts`. -/
def mkArtifactTag (ident ty lang content : PyStr) : PyStr :=
  "<antArtifact identifier=\"".data ++ ident ++ "\" type=\"".data ++ ty
    ++ "\" language=\"".data ++ lang ++ "\" title=\"Code Block\">".data
    ++ content ++ "</antArtifact>".data

/-- The synthesized identifier `f"block-{len(messages)}"`. -/
def blockIdent (n : Nat) : PyStr := "block-".data ++ (toString n).data

/-- The loop of `ArtifactHandler.reconstruct_artifacts`: `cur` is
`current_artifact` (armed by a divider block, carrying the identifier
computed at arming time), `msgs` the accumulated `messages` list. -/
def reconArtGo (cur : Option PyStr) (msgs : List PyStr) :
    List Block → List PyStr
  | [] => msgs
  | .sec t :: rest =>
    match matchFence t with
    | some (lang, content) =>
      match cur with
      | some ident =>
        reconArtGo none
          (msgs ++ [mkArtifactTag ident (typeForLang lang) lang content]) rest
      | none => reconArtGo none msgs rest
    | none => reconArtGo cur (msgs ++ [t]) rest
  | .divider :: rest => reconArtGo (some (blockIdent msgs.length)) msgs rest
  | .other :: rest => reconArtGo cur msgs rest

/-- `ArtifactHandler.reconstruct_artifacts` (artifact.py). -/
def reconstruct_artifacts (blocks : List Block) : PyStr :=
  List.intercalate ['\n'] (reconArtGo none [] blocks)

/-- A Slack message, with the fields the embedded functions inspect.
`user` is `msg.get("user")` (may be absent), `ts` the timestamp as the
rational value of `float(msg["ts"])`. -/
structure SlackMsg where
  user : Option PyStr
  text : PyStr
  blocks : List Block
  files : List FileRef
  ts : Rat
  deriving DecidableEq

/-- A content part of a conversation turn: a text part built from a message
body, or any part produced by the attachment gateway (which may itself be a
text, image or document part — opaque here). -/
inductive ContentPart where
  | text (s : PyStr)
  | media (tag : Nat)
  deriving DecidableEq

/-- Conversation roles. -/
inductive Role where
  | user
  | assistant
  deriving DecidableEq

/-- A conversation turn sent to the model. -/
structure Turn where
  role : Role
  content : List ContentPart
  deriving DecidableEq

/-- `ClaudeBot.is_aside`: the stripped, lower-cased body starts with
`@aside`. -/
def is_aside (t : PyStr) : Bool :=
  ("@aside".data).isPrefixOf ((pyStrip t).map Char.toLower)

/-- The body-replacement step of `format_thread`: for a bot message with a
non-empty block list, replace the body with the non-empty reconstruction of
its blocks. -/
def effText (botId : PyStr) (m : SlackMsg) : PyStr :=
  if m.user == some botId ∧ m.blocks ≠ [] then
    match reconstruct_from_slackmsg m.blocks with
    | [] => m.text
    | bt => bt
  else m.text

/-- The content-building step of `format_thread`: a text part from the
(possibly replaced) body if it is non-empty and does not start with the
overflow sentinel, followed by the parts the attachment gateway `gw`
produces for the files (only consulted when the file list is non-empty). -/
def msgContent (gw : List FileRef → List ContentPart) (botId : PyStr)
    (m : SlackMsg) : List ContentPart :=
  let t := effText botId m
  (if t ≠ [] ∧ ¬ LONGRESPONSE.isPrefixOf t then [ContentPart.text t] else [])
    ++ (if m.files ≠ [] then gw m.files else [])

/-- One iteration of the `format_thread` loop: `none` when the message is
skipped (visibility filter, aside, or empty content), else the turn it
contributes. -/
def msgTurn (gw : List FileRef → List ContentPart) (botId : PyStr)
    (initiator : Option PyStr) (config : Config) (m : SlackMsg) : Option Turn :=
  if m.user ≠ some botId ∧ m.user ≠ initiator ∧ ¬ cfgTruthy config kIsPublic then
    none
  else if is_aside m.text then none
  else if msgContent gw botId m = [] then none
  else
    some ⟨if m.user == some botId then .assistant else .user,
      msgContent gw botId m⟩

/-- `ClaudeBot.format_thread`.  The initiator is the author of the first
message of the snapshot; in the orchestrator the snapshot is never empty
(`conversations_replies` always returns at least the root). -/
def format_thread (gw : List FileRef → List ContentPart) (botId : PyStr)
    (thread : List SlackMsg) (config : Config) : List Turn :=
  match thread with
  | [] => []
  | first :: _ => thread.filterMap (msgTurn gw botId first.user config)

/-- The initiator-turn content built on the new-thread path of
`handle_message`: `initial_content = [{"type": "text", "text": text}]`,
extended with the gateway parts when files are attached.  Note the text part
is unconditional, even for an empty cleaned text. -/
def newThreadContent (gw : List FileRef → List ContentPart) (cleaned : PyStr)
    (files : List FileRef) : List ContentPart :=
  ContentPart.text cleaned :: (if files ≠ [] then gw files else [])

/-- Outcome of processing one thread-reply event in `handle_message`:
`ignored` — an early `return` with nothing posted; `errorReplied` — an
exception reached the orchestrator's handler, which posts an error reply;
`skippedModel` — the `claude` kill-switch returned before the API call, with
nothing posted; `modelCalled` — the path proceeds to invoke the model with
the formatted turns. -/
inductive EventOutcome where
  | ignored
  | errorReplied
  | skippedModel
  | modelCalled (turns : List Turn) (config : Config)

/-- The thread-reply branch of `ClaudeBot.handle_message` (the
`is_thread_message` case, through the decision to call the model): parse the
initiator message, gate on `is_bot_mention`, gate on replier identity vs
`is_public`, substitute the cleaned initiator text, format the thread, bail
out if the last turn is the assistant's, honour the `claude` kill-switch.
An uncaught exception (from `parse_config_block`, or indexing an empty turn
list) lands in the orchestrator's `except`, which posts an error reply. -/
def handleThreadReply (evalLit : PyStr → Except LitErr PyVal)
    (gw : List FileRef → List ContentPart) (botId : PyStr)
    (thread : List SlackMsg) (replier : PyStr) : EventOutcome :=
  match thread with
  | [] => .errorReplied
  | first :: rest =>
    match parse_config_block evalLit botId first.text with
    | .error _ => .errorReplied
    | .ok (firstTxt, config) =>
      if ¬ cfgTruthy config kIsBotMention then .ignored
      else if ¬ cfgTruthy config kIsPublic ∧ some replier ≠ first.user then
        .ignored
      else
        match (format_thread gw botId
            (SlackMsg.mk first.user firstTxt first.blocks first.files first.ts
              :: rest) config).getLast? with
        | none => .errorReplied
        | some t =>
          if t.role = .assistant then .ignored
          else if pyEq ((cfgGet config kClaude).getD .pynone) (.bool false) then
            .skippedModel
          else
            .modelCalled (format_thread gw botId
              (SlackMsg.mk first.user firstTxt first.blocks first.files first.ts
                :: rest) config) config

/-- `ClaudeBot.handle_message_deleted`, returning the timestamps of the
messages it deletes (each `chat_delete` failure is caught individually, so
the list is exactly the set of attempted deletions). -/
def handle_message_deleted (botId : PyStr) (prevThreadTs : Option Rat)
    (prevSubtype : Option PyStr) (messages : List SlackMsg)
    (deletedTs : Rat) : List Rat :=
  match prevThreadTs with
  | none => []
  | some _ =>
    if prevSubtype = some ("tombstone".data) then []
    else
      match messages.findIdx? (fun m => deletedTs ≤ m.ts) with
      | none => []
      | some i =>
        ((messages.drop i).filter (fun m => m.user == some botId)).map
          (fun m => m.ts)

/-! ### Concrete instances used in witnesses and counterexamples -/

/-- A gateway that resolves no attachment (no files are ever passed). -/
def gw0 : List FileRef → List ContentPart := fun _ => []

/-- A `literal_eval` oracle for texts with no parseable directive body. -/
def evalFail : PyStr → Except LitErr PyVal := fun _ => .error .synErr

/-- `literal_eval` on `\x7b5\x7d` yields the set `{5}` — a non-dict literal. -/
def evalSet5 : PyStr → Except LitErr PyVal := fun s =>
  if s = ('\x7b' :: '5' :: ['\x7d']) then .ok (.set [.int 5])
  else .error .synErr

/-- The message text `\x7b\x7b5\x7d\x7d` + newline + `Hi`: a directive block
whose body is the non-dict literal `5`. -/
def txtBad : PyStr := '\x7b' :: '\x7b' :: '5' :: '\x7d' :: '\x7d' :: '\n' :: "Hi".data

/-- A directive body setting `is_bot_mention` to `False`. -/
def bodyBM : PyStr := (" \"is_bot_mention\": False ").data

/-- `literal_eval` on the braced `bodyBM` yields
`\x7bis_bot_mention: False\x7d`. -/
def evalBM : PyStr → Except LitErr PyVal := fun s =>
  if s = ('\x7b' :: (bodyBM ++ ['\x7d'])) then
    .ok (.dict [(kIsBotMention, .bool false)])
  else .error .synErr

/-- A directive body setting `temperature` to `2`. -/
def bodyTemp : PyStr := (" \"temperature\": 2 ").data

/-- `literal_eval` oracle for `bodyTemp`. -/
def evalTemp : PyStr → Except LitErr PyVal := fun s =>
  if s = ('\x7b' :: (bodyTemp ++ ['\x7d'])) then
    .ok (.dict [(.str "temperature".data, .int 2)])
  else .error .synErr

/-- Thread-initiator message whose directive body is the non-dict literal. -/
def msgInitBad : SlackMsg := SlackMsg.mk (some "A".data) txtBad [] [] 1

/-- A reply by user `C`. -/
def msgReplyC : SlackMsg := SlackMsg.mk (some "C".data) "ok".data [] [] 2

/-- A thread-initiator message properly mentioning the bot `B`. -/
def msgInitOk : SlackMsg := SlackMsg.mk (some "A".data) "<@B> hi".data [] [] 1

/-- A bot-authored reply. -/
def msgBot : SlackMsg := SlackMsg.mk (some "B".data) "yo".data [] [] 2

/-- Initiator message used in the formatter examples. -/
def mA : SlackMsg := SlackMsg.mk (some "A".data) "hi".data [] [] 1

/-- A non-initiator message with an empty body and no attachments. -/
def mB : SlackMsg := SlackMsg.mk (some "Bb".data) [] [] [] 2

/-- A non-initiator message with a non-empty body. -/
def mC : SlackMsg := SlackMsg.mk (some "Bb".data) "yo".data [] [] 2

/-- A non-initiator aside message. -/
def mAside : SlackMsg := SlackMsg.mk (some "Bb".data) "  @ASIDE psst".data [] [] 2

/-- A message with an empty body and no files. -/
def mEmpty : SlackMsg := SlackMsg.mk (some "A".data) [] [] [] 3

/-- A directive map with `is_public: True`. -/
def cfgPub : Config := [(kIsPublic, PyVal.bool true)]

/-- A rendered fenced code block (as posted after a divider). -/
def fencedTxt : PyStr := "```py\nx\n```".data

/-- Display blocks of a bot message carrying one artifact: a divider followed
by a fenced code section. -/
def bsC4 : List Block := [Block.divider, Block.sec fencedTxt]

/-- Display blocks with only plain sections (no fences, no sentinel). -/
def bsPlain : List Block :=
  [Block.sec "hello".data, Block.divider, Block.other, Block.sec "world".data]

/-- A five-message thread: positions 1,3 by user `U`, 2,4,5 by the bot `B`. -/
def msgs5 : List SlackMsg :=
  [SlackMsg.mk (some "U".data) "m".data [] [] 1,
   SlackMsg.mk (some "B".data) "m".data [] [] 2,
   SlackMsg.mk (some "U".data) "m".data [] [] 3,
   SlackMsg.mk (some "B".data) "m".data [] [] 4,
   SlackMsg.mk (some "B".data) "m".data [] [] 5]

/-! ### String lemmas -/

theorem dropWhile_append_stop (p : Char → Bool) (xs : PyStr) (c : Char)
    (ys : PyStr) (hc : p c = false) :
    (xs ++ c :: ys).dropWhile p = xs.dropWhile p ++ c :: ys := by
  induction xs with
  | nil => simp [List.dropWhile_cons, hc]
  | cons a l ih =>
    by_cases ha : p a
    · simpa [List.dropWhile_cons, ha] using ih
    · simp [List.dropWhile_cons, ha]

theorem lstrip_cons_neg (c : Char) (l : PyStr) (hc : pyWs c = false) :
    lstrip (c :: l) = c :: l := by
  simp [lstrip, List.dropWhile_cons, hc]

theorem lstrip_cons_pos (c : Char) (l : PyStr) (hc : pyWs c = true) :
    lstrip (c :: l) = lstrip l := by
  simp [lstrip, List.dropWhile_cons, hc]

theorem rstrip_append (l : PyStr) (c : Char) (r : PyStr) (hc : pyWs c = false) :
    rstrip (l ++ c :: r) = l ++ c :: rstrip r := by
  unfold rstrip
  have h1 : (l ++ c :: r).reverse = r.reverse ++ c :: l.reverse := by
    simp
  rw [h1, dropWhile_append_stop _ _ _ _ hc]
  simp

theorem dropWhile_dropWhile (p : Char → Bool) (l : PyStr) :
    (l.dropWhile p).dropWhile p = l.dropWhile p := by
  induction l with
  | nil => rfl
  | cons a t ih =>
    by_cases ha : p a
    · simpa [List.dropWhile_cons, ha] using ih
    · simp [List.dropWhile_cons, ha]

theorem lstrip_idem (l : PyStr) : lstrip (lstrip l) = lstrip l :=
  dropWhile_dropWhile pyWs l

theorem rstrip_idem (l : PyStr) : rstrip (rstrip l) = rstrip l := by
  unfold rstrip
  simp [dropWhile_dropWhile]

theorem rstrip_cons (c : Char) (t : PyStr) :
    rstrip (c :: t)
      = if rstrip t = [] then (if pyWs c then [] else [c])
        else c :: rstrip t := by
  by_cases h : rstrip t = []
  · have h0 : t.reverse.dropWhile pyWs = [] := by
      have := congrArg List.reverse h
      simpa [rstrip] using this
    by_cases hc : pyWs c
    · simp [rstrip, List.dropWhile_append, h0, List.dropWhile_cons, hc, h]
    · simp [rstrip, List.dropWhile_append, h0, List.dropWhile_cons, hc, h]
  · have h0 : t.reverse.dropWhile pyWs ≠ [] := by
      intro hh
      exact h (by simp [rstrip, hh])
    simp [rstrip, List.dropWhile_append, List.isEmpty_iff, h0, h]

theorem rstrip_lstrip_comm (l : PyStr) :
    rstrip (lstrip l) = lstrip (rstrip l) := by
  induction l with
  | nil => rfl
  | cons c t ih =>
    by_cases hc : pyWs c
    · rw [lstrip_cons_pos c t hc, ih, rstrip_cons]
      by_cases h : rstrip t = []
      · simp [h, hc]
      · rw [if_neg h, lstrip_cons_pos c _ hc]
    · rw [lstrip_cons_neg c t (by simpa using hc), rstrip_cons]
      by_cases h : rstrip t = []
      · simp only [if_pos h, if_neg hc]
        exact (lstrip_cons_neg c [] (by simpa using hc)).symm
      · simp only [if_neg h]
        exact (lstrip_cons_neg c _ (by simpa using hc)).symm

theorem pyStrip_idem (l : PyStr) : pyStrip (pyStrip l) = pyStrip l := by
  unfold pyStrip
  rw [rstrip_lstrip_comm, rstrip_idem, lstrip_idem]

theorem pyStrip_cons_ws (c : Char) (l : PyStr) (hc : pyWs c = true) :
    pyStrip (c :: l) = pyStrip l := by
  unfold pyStrip
  rw [rstrip_cons]
  by_cases h : rstrip l = []
  · simp [h, hc]
  · rw [if_neg h, lstrip_cons_pos c _ hc]

theorem pyStrip_clean (c : Char) (mid : PyStr) (d : Char) (r : PyStr)
    (hc : pyWs c = false) (hd : pyWs d = false) :
    pyStrip (c :: mid ++ d :: rstrip r) = c :: mid ++ d :: rstrip r := by
  unfold pyStrip
  have h1 : rstrip (c :: mid ++ d :: rstrip r) = c :: mid ++ d :: rstrip r := by
    have := rstrip_append (c :: mid) d (rstrip r) hd
    simpa [rstrip_idem] using this
  rw [h1]
  exact lstrip_cons_neg c _ hc

theorem pyStrip_block (pre : PyStr) (c : Char) (r : PyStr)
    (hpre : pre = [] ∨ ∃ c0 t0, pre = c0 :: t0 ∧ pyWs c0 = false)
    (hc : pyWs c = false) :
    pyStrip (pre ++ c :: r) = pre ++ c :: rstrip r := by
  unfold pyStrip
  rw [rstrip_append pre c r hc]
  rcases hpre with h | ⟨c0, t0, rfl, h0⟩
  · subst h
    simp only [List.nil_append]
    exact lstrip_cons_neg c _ hc
  · exact lstrip_cons_neg c0 _ h0

/-! ### Prefix-token and stripping-loop lemmas -/

theorem isPrefixOf_append_self (l r : PyStr) : l.isPrefixOf (l ++ r) = true :=
  List.isPrefixOf_iff_prefix.mpr (List.prefix_append l r)

theorem isPrefixOf_ne_head (a b : Char) (l r : PyStr) (h : a ≠ b) :
    (a :: l).isPrefixOf (b :: r) = false := by
  simp [List.isPrefixOf, h]

theorem mentionTok_no_match (b : Char) (x : PyStr) (hb : b ≠ '<')
    (botId : PyStr) : (mentionTok botId).isPrefixOf (b :: x) = false := by
  rw [show mentionTok botId = '<' :: ('@' :: (botId ++ ['>'])) from rfl]
  exact isPrefixOf_ne_head _ _ _ _ (fun hh => hb (hh ▸ rfl))

theorem publicTok_no_match (b : Char) (x : PyStr) (hb : b ≠ '@') :
    publicTok.isPrefixOf (b :: x) = false := by
  rw [show publicTok = '@' :: "public".data from rfl]
  exact isPrefixOf_ne_head _ _ _ _ (fun hh => hb (hh ▸ rfl))

theorem stripLoop_mention (f : Nat) (botId rest : PyStr) (cfg : Config) :
    stripLoop (f + 1) botId (mentionTok botId ++ rest) cfg
      = stripLoop f botId (pyStrip rest)
          (dictSet cfg kIsBotMention (.bool true)) := by
  conv_lhs => rw [stripLoop]
  rw [if_pos (isPrefixOf_append_self _ _), List.drop_left]

theorem stripLoop_public (f : Nat) (botId rest : PyStr) (cfg : Config) :
    stripLoop (f + 1) botId (publicTok ++ rest) cfg
      = stripLoop f botId (pyStrip rest)
          (dictSet cfg kIsPublic (.bool true)) := by
  conv_lhs => rw [stripLoop]
  rw [show publicTok ++ rest = '@' :: ("public".data ++ rest) from rfl,
    mentionTok_no_match '@' _ (by decide) botId]
  simp only [Bool.false_eq_true, if_false]
  rw [show ('@' : Char) :: ("public".data ++ rest) = publicTok ++ rest from rfl,
    if_pos (isPrefixOf_append_self _ _), List.drop_left]

theorem stripLoop_stop (f : Nat) (botId t0 : PyStr) (cfg : Config)
    (h1 : (mentionTok botId).isPrefixOf t0 = false)
    (h2 : publicTok.isPrefixOf t0 = false) :
    stripLoop (f + 1) botId t0 cfg = (t0, cfg) := by
  conv_lhs => rw [stripLoop]
  rw [h1, h2]
  simp

/-! ### Directive-block regex lemmas -/

theorem hasBB_cons_false (c d : Char) (r : PyStr)
    (h : hasBB (c :: d :: r) = false) :
    ¬ (c = '\x7d' ∧ d = '\x7d') ∧ hasBB (d :: r) = false := by
  rw [hasBB] at h
  simp only [Bool.or_eq_false_iff, Bool.and_eq_false_iff] at h
  constructor
  · intro ⟨u, v⟩
    rcases h.1 with hh | hh <;> simp [u, v] at hh
  · exact h.2

theorem searchClose_exact (body tail : PyStr)
    (h : hasBB (body ++ ['\x7d']) = false) :
    searchClose (body ++ '\x7d' :: '\x7d' :: tail) = some (body, tail) := by
  induction body with
  | nil => simp [searchClose]
  | cons c body' ih =>
    cases body' with
    | nil =>
      have hc : c ≠ '\x7d' := by
        intro hc1
        subst hc1
        simp [hasBB] at h
      simp [searchClose, hc]
    | cons d body'' =>
      have hsplit := hasBB_cons_false c d (body'' ++ ['\x7d'])
        (by simpa using h)
      have hrec := ih (by simpa using hsplit.2)
      simp only [List.cons_append] at hrec ⊢
      rw [searchClose, if_neg hsplit.1, hrec]

theorem splitClose_exact (body tail : PyStr) (hne : body ≠ [])
    (h : hasBB (body ++ ['\x7d']) = false) :
    splitClose (body ++ '\x7d' :: '\x7d' :: tail) = some (body, tail) := by
  cases body with
  | nil => exact absurd rfl hne
  | cons c body' =>
    have h' : hasBB (body' ++ ['\x7d']) = false := by
      cases body' with
      | nil => simp [hasBB]
      | cons d body'' =>
        exact (hasBB_cons_false c d (body'' ++ ['\x7d']) (by simpa using h)).2
    have hrec := searchClose_exact body' tail h'
    rw [List.cons_append, splitClose]
    rw [hrec]

theorem matchConfigBlock_exact (body tail : PyStr) (hne : body ≠ [])
    (h : hasBB (body ++ ['\x7d']) = false) :
    matchConfigBlock ('\x7b' :: '\x7b' :: (body ++ '\x7d' :: '\x7d' :: tail))
      = some (body, lstrip tail) := by
  have hsc := splitClose_exact body tail hne h
  unfold matchConfigBlock
  rw [lstrip_cons_neg _ _ (by decide)]
  simp only [hsc]

/-! ### Behaviour of the parser on well-formed directive texts -/

theorem pyStrip_parts (A body tr : PyStr)
    (hA : A = [] ∨ ∃ c0 t0, A = c0 :: t0 ∧ pyWs c0 = false) :
    pyStrip (A ++ ('\x7b' :: '\x7b' :: (body ++ '\x7d' :: '\x7d' :: tr)))
      = A ++ ('\x7b' :: '\x7b' :: (body ++ '\x7d' :: '\x7d' :: rstrip tr)) := by
  have h1 : A ++ ('\x7b' :: '\x7b' :: (body ++ '\x7d' :: '\x7d' :: tr))
      = (A ++ ('\x7b' :: ('\x7b' :: (body ++ ['\x7d'])))) ++ ('\x7d' :: tr) := by
    simp
  have hpre : (A ++ ('\x7b' :: ('\x7b' :: (body ++ ['\x7d'])))) = []
      ∨ ∃ c0 t0, (A ++ ('\x7b' :: ('\x7b' :: (body ++ ['\x7d'])))) = c0 :: t0
          ∧ pyWs c0 = false := by
    rcases hA with rfl | ⟨c0, t0, rfl, h0⟩
    · exact Or.inr ⟨'\x7b', '\x7b' :: (body ++ ['\x7d']), by simp, by decide⟩
    · exact Or.inr ⟨c0, t0 ++ ('\x7b' :: ('\x7b' :: (body ++ ['\x7d']))), by simp, h0⟩
  rw [h1, pyStrip_block _ _ _ hpre (by decide)]
  simp

theorem pyStrip_mkText (m p : Bool) (botId body trailing : PyStr) :
    pyStrip (mkText m p botId body trailing)
      = mkText m p botId body (rstrip trailing) := by
  have hA : ((if m then mentionTok botId ++ [' '] else [])
        ++ (if p then publicTok ++ [' '] else [])) = []
      ∨ ∃ c0 t0, ((if m then mentionTok botId ++ [' '] else [])
        ++ (if p then publicTok ++ [' '] else [])) = c0 :: t0 ∧ pyWs c0 = false := by
    cases m
    · cases p
      · exact Or.inl rfl
      · exact Or.inr ⟨'@', "public".data ++ [' '], by simp [publicTok], by decide⟩
    · exact Or.inr ⟨'<', '@' :: ((botId ++ ['>'])
        ++ ([' '] ++ (if p then publicTok ++ [' '] else []))),
        by simp [mentionTok], by decide⟩
  have := pyStrip_parts
    ((if m then mentionTok botId ++ [' '] else [])
      ++ (if p then publicTok ++ [' '] else [])) body trailing hA
  simpa [mkText, List.append_assoc] using this

theorem pyStrip_coreTail (body tr : PyStr) :
    pyStrip ('\x7b' :: '\x7b' :: (body ++ '\x7d' :: '\x7d' :: rstrip tr))
      = '\x7b' :: '\x7b' :: (body ++ '\x7d' :: '\x7d' :: rstrip tr) := by
  have := pyStrip_parts [] body (rstrip tr) (Or.inl rfl)
  simpa [rstrip_idem] using this

theorem pyStrip_pubCore (body tr : PyStr) :
    pyStrip (publicTok
        ++ (' ' :: ('\x7b' :: '\x7b' :: (body ++ '\x7d' :: '\x7d' :: rstrip tr))))
      = publicTok
        ++ (' ' :: ('\x7b' :: '\x7b' :: (body ++ '\x7d' :: '\x7d' :: rstrip tr))) := by
  have := pyStrip_parts (publicTok ++ [' ']) body (rstrip tr)
    (Or.inr ⟨'@', "public".data ++ [' '], by simp [publicTok], by decide⟩)
  simpa [rstrip_idem, List.append_assoc] using this

theorem mkText_length_ge (m p : Bool) (botId body trailing : PyStr) :
    4 ≤ (mkText m p botId body trailing).length := by
  cases m <;> cases p <;> simp [mkText, mentionTok, publicTok] <;> try omega

theorem stripLead_mkText (m p : Bool) (botId body trailing : PyStr) :
    stripLead botId (mkText m p botId body trailing)
      = ('\x7b' :: '\x7b' :: (body ++ '\x7d' :: '\x7d' :: rstrip trailing),
         structFlags m p) := by
  have hlen := mkText_length_ge m p botId body trailing
  unfold stripLead
  rw [pyStrip_mkText]
  cases m <;> cases p
  case false.false =>
    rw [show mkText false false botId body (rstrip trailing)
        = '\x7b' :: '\x7b' :: (body ++ '\x7d' :: '\x7d' :: rstrip trailing)
      from by simp [mkText]]
    rw [stripLoop_stop _ _ _ _ (mentionTok_no_match _ _ (by decide) _)
      (publicTok_no_match _ _ (by decide))]
    rfl
  case false.true =>
    rw [show mkText false true botId body (rstrip trailing)
        = publicTok ++ (' ' :: ('\x7b' :: '\x7b'
            :: (body ++ '\x7d' :: '\x7d' :: rstrip trailing)))
      from by simp [mkText]]
    rw [stripLoop_public]
    rw [pyStrip_cons_ws _ _ (by decide), pyStrip_coreTail]
    rw [show (mkText false true botId body trailing).length
        = ((mkText false true botId body trailing).length - 1) + 1 from by omega]
    rw [stripLoop_stop _ _ _ _ (mentionTok_no_match _ _ (by decide) _)
      (publicTok_no_match _ _ (by decide))]
    rfl
  case true.false =>
    rw [show mkText true false botId body (rstrip trailing)
        = mentionTok botId ++ (' ' :: ('\x7b' :: '\x7b'
            :: (body ++ '\x7d' :: '\x7d' :: rstrip trailing)))
      from by simp [mkText]]
    rw [stripLoop_mention]
    rw [pyStrip_cons_ws _ _ (by decide), pyStrip_coreTail]
    rw [show (mkText true false botId body trailing).length
        = ((mkText true false botId body trailing).length - 1) + 1 from by omega]
    rw [stripLoop_stop _ _ _ _ (mentionTok_no_match _ _ (by decide) _)
      (publicTok_no_match _ _ (by decide))]
    rfl
  case true.true =>
    rw [show mkText true true botId body (rstrip trailing)
        = mentionTok botId ++ (' ' :: (publicTok ++ (' ' :: ('\x7b' :: '\x7b'
            :: (body ++ '\x7d' :: '\x7d' :: rstrip trailing)))))
      from by simp [mkText]]
    rw [stripLoop_mention]
    rw [pyStrip_cons_ws _ _ (by decide), pyStrip_pubCore]
    rw [show (mkText true true botId body trailing).length
        = ((mkText true true botId body trailing).length - 1) + 1 from by omega]
    rw [stripLoop_public]
    rw [pyStrip_cons_ws _ _ (by decide), pyStrip_coreTail]
    rw [show (mkText true true botId body trailing).length - 1
        = ((mkText true true botId body trailing).length - 2) + 1 from by omega]
    rw [stripLoop_stop _ _ _ _ (mentionTok_no_match _ _ (by decide) _)
      (publicTok_no_match _ _ (by decide))]
    rfl

theorem parse_config_block_wf (evalLit : PyStr → Except LitErr PyVal)
    (botId body trailing : PyStr) (m p : Bool)
    (entries : List (PyVal × PyVal)) (hne : body ≠ [])
    (hbb : hasBB (body ++ ['\x7d']) = false)
    (heval : evalLit ('\x7b' :: (body ++ ['\x7d'])) = .ok (.dict entries)) :
    parse_config_block evalLit botId (mkText m p botId body trailing)
      = .ok (pyStrip trailing, dictUpdateAll (structFlags m p) entries) := by
  have hps : pyStrip (lstrip (rstrip trailing)) = pyStrip trailing := by
    rw [show lstrip (rstrip trailing) = pyStrip trailing from rfl, pyStrip_idem]
  unfold parse_config_block
  simp only [stripLead_mkText,
    matchConfigBlock_exact body (rstrip trailing) hne hbb, List.cons_append,
    heval, dictUpdate, hps]

/-! ### Directive-map lookup lemmas (string keys) -/

theorem pyEq_str_right (x : PyVal) (s : PyStr) :
    pyEq x (.str s) = true ↔ x = .str s := by
  cases x with
  | str a => rw [show pyEq (.str a) (.str s) = (a == s) from rfl]; simp
  | int n => rw [show pyEq (.int n) (.str s) = false from rfl]; simp
  | bool b => rw [show pyEq (.bool b) (.str s) = false from rfl]; simp
  | pynone => rw [show pyEq .pynone (.str s) = false from rfl]; simp
  | dict e => rw [show pyEq (.dict e) (.str s) = false from rfl]; simp
  | set e => rw [show pyEq (.set e) (.str s) = false from rfl]; simp
  | tuple e => rw [show pyEq (.tuple e) (.str s) = false from rfl]; simp
  | list e => rw [show pyEq (.list e) (.str s) = false from rfl]; simp

theorem pyEq_str_left (s : PyStr) (x : PyVal) :
    pyEq (.str s) x = true ↔ x = .str s := by
  cases x with
  | str a =>
    rw [show pyEq (.str s) (.str a) = (s == a) from rfl]
    constructor
    · intro h
      have h2 : s = a := by simpa using h
      rw [h2]
    · intro h
      injection h with h2
      simp [h2]
  | int n => rw [show pyEq (.str s) (.int n) = false from rfl]; simp
  | bool b => rw [show pyEq (.str s) (.bool b) = false from rfl]; simp
  | pynone => rw [show pyEq (.str s) .pynone = false from rfl]; simp
  | dict e => rw [show pyEq (.str s) (.dict e) = false from rfl]; simp
  | set e => rw [show pyEq (.str s) (.set e) = false from rfl]; simp
  | tuple e => rw [show pyEq (.str s) (.tuple e) = false from rfl]; simp
  | list e => rw [show pyEq (.str s) (.list e) = false from rfl]; simp

theorem pyEq_str_refl (s : PyStr) : pyEq (.str s) (.str s) = true := by
  rw [show pyEq (.str s) (.str s) = (s == s) from rfl]
  simp

theorem cfgGet_dictSet_str (cfg : Config) (a b : PyVal) (s : PyStr) :
    cfgGet (dictSet cfg a b) (.str s)
      = if pyEq a (.str s) then some b else cfgGet cfg (.str s) := by
  induction cfg with
  | nil => simp [dictSet, cfgGet]
  | cons kv rest ih =>
    obtain ⟨k0, v0⟩ := kv
    by_cases hk : pyEq k0 a
    · have hiff : pyEq k0 (.str s) = pyEq a (.str s) := by
        by_cases ha : pyEq a (.str s)
        · have : a = .str s := (pyEq_str_right a s).mp ha
          subst this
          simp [ha, hk]
        · have ha' : pyEq a (.str s) = false := by simpa using ha
          rw [ha']
          by_cases h0 : pyEq k0 (.str s)
          · exfalso
            have hk0 : k0 = .str s := (pyEq_str_right k0 s).mp h0
            subst hk0
            have haa : a = .str s := (pyEq_str_left s a).mp hk
            subst haa
            exact ha (pyEq_str_refl s)
          · simpa using h0
      simp only [dictSet, if_pos hk, cfgGet, hiff]
      by_cases ha : pyEq a (.str s) <;> simp [ha]
    · have hk' : pyEq k0 a = false := by simpa using hk
      simp only [dictSet, hk', Bool.false_eq_true, if_false, cfgGet, ih]
      by_cases h0 : pyEq k0 (.str s)
      · have hk0 : k0 = .str s := (pyEq_str_right k0 s).mp h0
        subst hk0
        have ha : pyEq a (.str s) = false := by
          by_cases ha' : pyEq a (.str s)
          · exfalso
            have : a = .str s := (pyEq_str_right a s).mp ha'
            subst this
            exact hk (pyEq_str_refl s)
          · simpa using ha'
        simp [h0, ha]
      · simp [h0]

theorem cfgGet_append (l1 l2 : Config) (k : PyVal) :
    cfgGet (l1 ++ l2) k
      = match cfgGet l1 k with
        | some v => some v
        | none => cfgGet l2 k := by
  induction l1 with
  | nil => simp [cfgGet]
  | cons kv rest ih =>
    obtain ⟨k0, v0⟩ := kv
    by_cases h : pyEq k0 k <;> simp [cfgGet, h, ih]

theorem cfgGet_dictUpdateAll_str (entries : List (PyVal × PyVal))
    (cfg : Config) (s : PyStr) :
    cfgGet (dictUpdateAll cfg entries) (.str s)
      = match lastLookup entries (.str s) with
        | some v => some v
        | none => cfgGet cfg (.str s) := by
  induction entries generalizing cfg with
  | nil => simp [dictUpdateAll, lastLookup, cfgGet]
  | cons kv rest ih =>
    obtain ⟨a, b⟩ := kv
    have hstep : dictUpdateAll cfg ((a, b) :: rest)
        = dictUpdateAll (dictSet cfg a b) rest := rfl
    rw [hstep, ih]
    have hlast : lastLookup ((a, b) :: rest) (.str s)
        = match lastLookup rest (.str s) with
          | some v => some v
          | none => if pyEq a (.str s) then some b else none := by
      unfold lastLookup
      rw [List.reverse_cons, cfgGet_append]
      cases cfgGet rest.reverse (.str s) <;> simp [cfgGet]
    rw [hlast]
    cases lastLookup rest (.str s) with
    | some v => simp
    | none =>
      simp only [cfgGet_dictSet_str]
      by_cases ha : pyEq a (.str s) <;> simp [ha]

/-! ### ThreadFormatter lemmas -/

theorem msgTurn_none_of_private (gw : List FileRef → List ContentPart)
    (botId : PyStr) (initiator : Option PyStr) (config : Config) (m : SlackMsg)
    (h1 : m.user ≠ some botId) (h2 : m.user ≠ initiator)
    (h3 : cfgTruthy config kIsPublic = false) :
    msgTurn gw botId initiator config m = none := by
  unfold msgTurn
  rw [if_pos ⟨h1, h2, by simp [h3]⟩]

theorem msgTurn_none_of_aside (gw : List FileRef → List ContentPart)
    (botId : PyStr) (initiator : Option PyStr) (config : Config) (m : SlackMsg)
    (h : is_aside m.text = true) :
    msgTurn gw botId initiator config m = none := by
  unfold msgTurn
  by_cases h1 : m.user ≠ some botId ∧ m.user ≠ initiator
      ∧ ¬ cfgTruthy config kIsPublic
  · rw [if_pos h1]
  · rw [if_neg h1, if_pos h]

theorem msgTurn_eq_some (gw : List FileRef → List ContentPart)
    (botId : PyStr) (initiator : Option PyStr) (config : Config) (m : SlackMsg)
    (t : Turn) (h : msgTurn gw botId initiator config m = some t) :
    t.content = msgContent gw botId m ∧ msgContent gw botId m ≠ []
      ∧ t.role = (if m.user == some botId then Role.assistant else Role.user) := by
  unfold msgTurn at h
  by_cases hv : m.user ≠ some botId ∧ m.user ≠ initiator
      ∧ ¬ cfgTruthy config kIsPublic
  · rw [if_pos hv] at h
    exact absurd h (by simp)
  · rw [if_neg hv] at h
    by_cases ha : is_aside m.text
    · rw [if_pos ha] at h
      exact absurd h (by simp)
    · rw [if_neg ha] at h
      by_cases hc : msgContent gw botId m = []
      · rw [if_pos hc] at h
        exact absurd h (by simp)
      · rw [if_neg hc] at h
        injection h with h2
        subst h2
        exact ⟨rfl, hc, rfl⟩

theorem msgTurn_some_public (gw : List FileRef → List ContentPart)
    (botId : PyStr) (initiator : Option PyStr) (config : Config) (m : SlackMsg)
    (hpub : cfgTruthy config kIsPublic = true) (haside : is_aside m.text = false)
    (hc : msgContent gw botId m ≠ []) (hbot : m.user ≠ some botId) :
    msgTurn gw botId initiator config m
      = some ⟨Role.user, msgContent gw botId m⟩ := by
  unfold msgTurn
  rw [if_neg (by intro hh; exact hh.2.2 (by simp [hpub]))]
  rw [if_neg (by simp [haside]), if_neg hc]
  have hrole : (m.user == some botId) = false := by
    simpa using hbot
  rw [hrole]
  simp

theorem format_thread_skip (gw : List FileRef → List ContentPart)
    (botId : PyStr) (config : Config) (first m : SlackMsg)
    (pre post : List SlackMsg)
    (hm : msgTurn gw botId first.user config m = none) :
    format_thread gw botId (first :: (pre ++ m :: post)) config
      = format_thread gw botId (first :: (pre ++ post)) config := by
  unfold format_thread
  simp [List.filterMap_cons, List.filterMap_append, hm]

theorem format_thread_mem (gw : List FileRef → List ContentPart)
    (botId : PyStr) (config : Config) (first m : SlackMsg)
    (pre post : List SlackMsg) (t : Turn)
    (hm : msgTurn gw botId first.user config m = some t) :
    t ∈ format_thread gw botId (first :: (pre ++ m :: post)) config := by
  unfold format_thread
  exact List.mem_filterMap.mpr ⟨m, by simp, hm⟩

theorem format_thread_content_ne (gw : List FileRef → List ContentPart)
    (botId : PyStr) (thread : List SlackMsg) (config : Config) (t : Turn)
    (h : t ∈ format_thread gw botId thread config) : t.content ≠ [] := by
  cases thread with
  | nil => simp [format_thread] at h
  | cons first rest =>
    unfold format_thread at h
    obtain ⟨m, _, hm⟩ := List.mem_filterMap.mp h
    obtain ⟨hcont, hne, _⟩ := msgTurn_eq_some gw botId first.user config m t hm
    rw [hcont]
    exact hne

/-! ### ArtifactCodec reconstruction lemmas -/

theorem reconArtGo_plain (blocks : List Block) (cur : Option PyStr)
    (msgs : List PyStr)
    (h : ∀ t, Block.sec t ∈ blocks → matchFence t = none) :
    reconArtGo cur msgs blocks
      = msgs ++ blocks.filterMap (fun b =>
          match b with
          | Block.sec t => some t
          | _ => none) := by
  induction blocks generalizing cur msgs with
  | nil => simp [reconArtGo]
  | cons b rest ih =>
    have hrest : ∀ t, Block.sec t ∈ rest → matchFence t = none :=
      fun t ht => h t (by simp [ht])
    cases b with
    | sec t =>
      have hft : matchFence t = none := h t (by simp)
      rw [show reconArtGo cur msgs (Block.sec t :: rest)
          = reconArtGo cur (msgs ++ [t]) rest from by
        rw [reconArtGo, hft]]
      rw [ih _ _ hrest]
      simp [List.filterMap_cons]
    | divider =>
      rw [show reconArtGo cur msgs (Block.divider :: rest)
          = reconArtGo (some (blockIdent msgs.length)) msgs rest from rfl]
      rw [ih _ _ hrest]
      simp [List.filterMap_cons]
    | other =>
      rw [show reconArtGo cur msgs (Block.other :: rest)
          = reconArtGo cur msgs rest from rfl]
      rw [ih _ _ hrest]
      simp [List.filterMap_cons]

theorem reconstruct_agree (blocks : List Block)
    (h1 : ∀ t, Block.sec t ∈ blocks → matchFence t = none)
    (h2 : ∀ t, Block.sec t ∈ blocks → LONGRESPONSE.isPrefixOf t = false) :
    reconstruct_from_slackmsg blocks = reconstruct_artifacts blocks := by
  unfold reconstruct_from_slackmsg reconstruct_artifacts
  rw [reconArtGo_plain blocks none [] h1]
  simp only [List.nil_append]
  congr 1
  apply List.filterMap_congr
  intro b hb
  cases b with
  | sec t => simp [h2 t hb]
  | divider => rfl
  | other => rfl

/-! ### Deletion-cascade lemmas -/

theorem findIdx?_eq_some_first {α : Type _} (p : α → Bool) (l : List α)
    (i : Nat) (x : α) (hx : l[i]? = some x) (hpx : p x = true)
    (hbefore : ∀ j, j < i → ∀ y, l[j]? = some y → p y = false) :
    l.findIdx? p = some i := by
  induction l generalizing i with
  | nil => simp at hx
  | cons a tl ih =>
    cases i with
    | zero =>
      simp at hx
      subst hx
      simp [List.findIdx?_cons, hpx]
    | succ j =>
      have ha : p a = false := hbefore 0 (Nat.succ_pos j) a (by simp)
      rw [List.findIdx?_cons, ha]
      simp only [Bool.false_eq_true, if_false, List.findIdx?_succ]
      rw [ih j (by simpa using hx)
        (fun j' hj' y hy => hbefore (j' + 1) (by omega) y (by simpa using hy))]
      rfl

/-! ### Claims -/

/-- Claim C2 (code bug): the claim states that `parse_config_block` never
raises and that a directive body that fails to parse as a dict falls back to
the structural flags with the brace content retained.  The code intends this
(`if not isinstance(config, dict): ... config2 = \x7b\x7d`) but tests
`config` instead of `config2`, so the guard never fires: on the body `5`,
`ast.literal_eval("\x7b5\x7d")` yields the set `\x7b5\x7d`, and
`config.update(\x7b5\x7d)` raises a `TypeError` that the
`except (SyntaxError, ValueError)` clause does not catch.  Evaluating the
embedded parser at that failing input shows the exception escaping. -/
theorem C2_parse_raises_on_nondict_body :
    parse_config_block evalSet5 "B".data txtBad = .error .typeErr := rfl

/-- Claim C1 (code bug): the claim states that a thread-reply event failing
the mention/visibility gate is ignored with no reply posted.  For a thread
whose initiator text is `\x7b\x7b5\x7d\x7d` + `Hi`, the initiator message
yields no directive map at all — `parse_config_block` raises the uncaught
`TypeError` of C2 — so the event fails the gate, yet the orchestrator's
`except` handler posts an error reply instead of staying silent. -/
theorem C1_raising_initiator_parse_posts_error_reply :
    handleThreadReply evalSet5 gw0 "B".data [msgInitBad, msgReplyC] "C".data
      = EventOutcome.errorReplied := rfl

/-- Claim C3 is refuted: with the bot mention stripped (structural
`is_bot_mention = True`), a directive block whose literal contains
`is_bot_mention: False` overwrites the structural flag — `config.update`
takes precedence for every key, including `is_bot_mention`. -/
theorem C3_structural_flag_overwritten :
    parse_config_block evalBM "B".data
        ("<@B> ".data ++ ('\x7b' :: '\x7b' :: (bodyBM ++ ('\x7d' :: '\x7d' :: " hi".data))))
      = .ok ("hi".data, [(kIsBotMention, PyVal.bool false)]) := rfl

/-- Claim C3 (amended): parsed directive values take precedence over the
structurally-set flags for every key, including `is_bot_mention`: when the
block parses as a dict whose last `is_bot_mention` entry has value `v`, the
returned map's `is_bot_mention` is `v`, not the structural `True`. -/
theorem C3_parsed_values_overwrite_structural
    (evalLit : PyStr → Except LitErr PyVal) (botId body trailing : PyStr)
    (m p : Bool) (entries : List (PyVal × PyVal)) (v : PyVal)
    (hne : body ≠ []) (hbb : hasBB (body ++ ['\x7d']) = false)
    (heval : evalLit ('\x7b' :: (body ++ ['\x7d'])) = .ok (.dict entries))
    (hlast : lastLookup entries kIsBotMention = some v) :
    ∃ cfg, parse_config_block evalLit botId (mkText m p botId body trailing)
        = .ok (pyStrip trailing, cfg) ∧ cfgGet cfg kIsBotMention = some v := by
  refine ⟨dictUpdateAll (structFlags m p) entries,
    parse_config_block_wf evalLit botId body trailing m p entries hne hbb heval,
    ?_⟩
  have h := cfgGet_dictUpdateAll_str entries (structFlags m p)
    ("is_bot_mention".data)
  rw [show PyVal.str ("is_bot_mention".data) = kIsBotMention from rfl] at h
  rw [h, hlast]

/-- Witness for the amended C3 at a concrete input. -/
theorem C3_parsed_values_overwrite_structural_witness :
    ∃ cfg, parse_config_block evalBM "B".data
          (mkText true false "B".data bodyBM " hi".data)
        = .ok (pyStrip (" hi".data), cfg)
      ∧ cfgGet cfg kIsBotMention = some (.bool false) :=
  C3_parsed_values_overwrite_structural evalBM "B".data bodyBM " hi".data
    true false [(kIsBotMention, .bool false)] (.bool false)
    (by decide) (by decide) rfl rfl

/-- Claim C5: on a text made of optional bot-mention and `@public` prefix
tokens followed by a well-formed doubled-brace directive block (body
non-empty, closing brace pair unambiguous) and trailing text, the parser
returns exactly the literal's entries merged over the structural flags
(parsed values winning), and the trailing text trimmed. -/
theorem C5_wellformed_directive_parse
    (evalLit : PyStr → Except LitErr PyVal) (botId body trailing : PyStr)
    (m p : Bool) (entries : List (PyVal × PyVal)) (hne : body ≠ [])
    (hbb : hasBB (body ++ ['\x7d']) = false)
    (heval : evalLit ('\x7b' :: (body ++ ['\x7d'])) = .ok (.dict entries)) :
    parse_config_block evalLit botId (mkText m p botId body trailing)
      = .ok (pyStrip trailing, dictUpdateAll (structFlags m p) entries) :=
  parse_config_block_wf evalLit botId body trailing m p entries hne hbb heval

/-- Witness for C5: `<@B> @public \x7b\x7b "temperature": 2 \x7d\x7d` +
newline + `Hello` parses to the map with both structural flags and the
temperature entry, and the cleaned text `Hello`. -/
theorem C5_wellformed_directive_parse_witness :
    parse_config_block evalTemp "B".data
        (mkText true true "B".data bodyTemp "\nHello ".data)
      = .ok ("Hello".data,
          [(kIsBotMention, PyVal.bool true), (kIsPublic, PyVal.bool true),
           (.str "temperature".data, .int 2)]) :=
  (C5_wellformed_directive_parse evalTemp "B".data bodyTemp "\nHello ".data
    true true [(.str "temperature".data, .int 2)]
    (by decide) (by decide) rfl).trans rfl

/-- Claim C4 is refuted: for a bot message whose blocks are a divider
followed by a fenced code section, the formatter's body replacement
(`reconstruct_from_slackmsg`) returns the raw fenced text, while
`ArtifactHandler.reconstruct_artifacts` re-wraps it into a synthetic
artifact tag — the two reconstructions differ (the formatter never calls
the codec; `artifact.py` is not even imported by the bot). -/
theorem C4_formatter_differs_from_codec :
    reconstruct_from_slackmsg bsC4 = fencedTxt
      ∧ reconstruct_from_slackmsg bsC4 ≠ reconstruct_artifacts bsC4 :=
  ⟨rfl, by decide⟩

/-- Claim C4 (amended): the formatter performs no artifact re-wrapping; its
body replacement agrees with ArtifactCodec reconstruction exactly on block
lists whose sections neither match the fenced-code pattern nor start with the
overflow sentinel (dividers and other block types are allowed). -/
theorem C4_formatter_codec_agree_plain (blocks : List Block)
    (h : ∀ t, Block.sec t ∈ blocks →
      matchFence t = none ∧ LONGRESPONSE.isPrefixOf t = false) :
    reconstruct_from_slackmsg blocks = reconstruct_artifacts blocks :=
  reconstruct_agree blocks (fun t ht => (h t ht).1) (fun t ht => (h t ht).2)

/-- Witness for the amended C4 on plain display blocks. -/
theorem C4_formatter_codec_agree_plain_witness :
    reconstruct_from_slackmsg bsPlain = reconstruct_artifacts bsPlain :=
  C4_formatter_codec_agree_plain bsPlain (by
    intro t ht
    simp only [bsPlain, List.mem_cons, List.not_mem_nil, or_false,
      reduceCtorEq, false_or] at ht
    rcases ht with h | h
    · cases h
      exact ⟨by decide, by decide⟩
    · cases h
      exact ⟨by decide, by decide⟩)

/-- Claim C6 is refuted on its inclusion clause: with `is_public` set, a
non-initiator, non-bot message whose body is empty and which has no
attachments still contributes no turn — removing it leaves the formatter
output unchanged, so it is not included. -/
theorem C6_public_empty_message_still_excluded :
    format_thread gw0 "BOT".data [mA, mB] cfgPub
        = [Turn.mk .user [ContentPart.text "hi".data]]
      ∧ format_thread gw0 "BOT".data [mA] cfgPub
        = [Turn.mk .user [ContentPart.text "hi".data]] :=
  ⟨rfl, rfl⟩

/-- Claim C6 (amended): the formatter excludes every non-initiator, non-bot
message when `is_public` is not truthy, and excludes every aside message
regardless of author and visibility; when `is_public` is truthy, such a
message is included provided it is not an aside and yields at least one
content part (otherwise it contributes no turn). -/
theorem C6_visibility_and_aside_rules
    (gw : List FileRef → List ContentPart) (botId : PyStr) (config : Config)
    (first m : SlackMsg) (pre post : List SlackMsg) :
    (cfgTruthy config kIsPublic = false → m.user ≠ some botId →
      m.user ≠ first.user →
      format_thread gw botId (first :: (pre ++ m :: post)) config
        = format_thread gw botId (first :: (pre ++ post)) config)
    ∧ (is_aside m.text = true →
      format_thread gw botId (first :: (pre ++ m :: post)) config
        = format_thread gw botId (first :: (pre ++ post)) config)
    ∧ (cfgTruthy config kIsPublic = true → is_aside m.text = false →
      m.user ≠ some botId → msgContent gw botId m ≠ [] →
      Turn.mk Role.user (msgContent gw botId m)
        ∈ format_thread gw botId (first :: (pre ++ m :: post)) config) := by
  refine ⟨?_, ?_, ?_⟩
  · intro h3 h1 h2
    exact format_thread_skip gw botId config first m pre post
      (msgTurn_none_of_private gw botId first.user config m h1 h2 h3)
  · intro h
    exact format_thread_skip gw botId config first m pre post
      (msgTurn_none_of_aside gw botId first.user config m h)
  · intro hpub haside hbot hc
    exact format_thread_mem gw botId config first m pre post _
      (msgTurn_some_public gw botId first.user config m hpub haside hc hbot)

/-- Witness for the amended C6: a private thread excludes a stranger's
message, an aside is excluded even in a public thread, and a non-empty
stranger message in a public thread is included. -/
theorem C6_visibility_and_aside_rules_witness :
    (format_thread gw0 "BOT".data [mA, mC] []
        = format_thread gw0 "BOT".data [mA] [])
    ∧ (format_thread gw0 "BOT".data [mA, mAside] cfgPub
        = format_thread gw0 "BOT".data [mA] cfgPub)
    ∧ Turn.mk Role.user [ContentPart.text "yo".data]
        ∈ format_thread gw0 "BOT".data [mA, mC] cfgPub := by
  refine ⟨?_, ?_, ?_⟩
  · exact (C6_visibility_and_aside_rules gw0 "BOT".data [] mA mC [] []).1
      (by decide) (by decide) (by decide)
  · exact (C6_visibility_and_aside_rules gw0 "BOT".data cfgPub mA mAside [] []).2.1
      (by decide)
  · exact (C6_visibility_and_aside_rules gw0 "BOT".data cfgPub mA mC [] []).2.2
      (by decide) (by decide) (by decide) (by decide)

/-- Claim C7 is refuted on the new-thread path: a message consisting of only
the bot mention is processed (its directive map has `is_bot_mention` set),
its cleaned body is empty, and the initiator content built by
`handle_message` still contains a text `ContentPart` with empty body. -/
theorem C7_newthread_empty_text_part :
    parse_config_block evalFail "B".data ("<@B>".data)
        = .ok ([], [(kIsBotMention, PyVal.bool true)])
      ∧ newThreadContent gw0 [] [] = [ContentPart.text []] :=
  ⟨rfl, rfl⟩

/-- Claim C7 (amended): every turn the thread formatter emits has at least
one content part (a message yielding zero parts contributes no turn), and a
message whose effective body is empty or is the overflow sentinel
contributes no body text part — only gateway parts; but the initiator
content on the new-thread path always starts with a text part from the
cleaned body, even when that body is empty. -/
theorem C7_turn_content_rules (gw : List FileRef → List ContentPart)
    (botId : PyStr) (thread : List SlackMsg) (config : Config) :
    (∀ t ∈ format_thread gw botId thread config, t.content ≠ [])
    ∧ (∀ m : SlackMsg,
        effText botId m = [] ∨ LONGRESPONSE.isPrefixOf (effText botId m) = true →
        msgContent gw botId m = (if m.files ≠ [] then gw m.files else []))
    ∧ (∀ (cleaned : PyStr) (files : List FileRef),
        (newThreadContent gw cleaned files).head?
          = some (ContentPart.text cleaned)) := by
  refine ⟨?_, ?_, ?_⟩
  · intro t ht
    exact format_thread_content_ne gw botId thread config t ht
  · intro m hm
    rcases hm with h | h
    · simp [msgContent, h]
    · simp [msgContent, h]
  · intro cleaned files
    rfl

/-- Witness for the amended C7 at concrete inputs. -/
theorem C7_turn_content_rules_witness :
    (Turn.mk Role.user [ContentPart.text "hi".data]).content ≠ []
    ∧ msgContent gw0 "B".data mEmpty
        = (if mEmpty.files ≠ [] then gw0 mEmpty.files else [])
    ∧ (newThreadContent gw0 [] []).head? = some (ContentPart.text []) := by
  refine ⟨?_, ?_, ?_⟩
  · exact (C7_turn_content_rules gw0 "B".data [mA] []).1
      (Turn.mk Role.user [ContentPart.text "hi".data]) (by decide)
  · exact (C7_turn_content_rules gw0 "B".data [] []).2.1 mEmpty (Or.inl rfl)
  · exact (C7_turn_content_rules gw0 "B".data [] []).2.2 [] []

/-- Claim C8: the overflow policy passes short output through unchanged;
long output with a working upload collaborator becomes the fixed sentinel
plus the file; long output with a failing upload collaborator becomes the
2950-character truncation with the truncation marker appended, of length at
most 3000, with no file — and since `upload_snippet` swallows its own
exceptions (modelled by the `Option` outcome), no upload failure reaches
the caller. -/
theorem C8_overflow_policy (upload : Option FileRef) (text : PyStr) :
    (text.length ≤ 3000 → handle_large_response upload text = (text, none))
    ∧ (∀ f, 3000 < text.length → upload = some f →
        handle_large_response upload text = (LONGRESPONSE, some f))
    ∧ (3000 < text.length → upload = none →
        handle_large_response upload text
            = (text.take 2950 ++ TRUNCMARK, none)
          ∧ (text.take 2950 ++ TRUNCMARK).length ≤ 3000
          ∧ TRUNCMARK <:+ (text.take 2950 ++ TRUNCMARK)) := by
  refine ⟨?_, ?_, ?_⟩
  · intro h
    unfold handle_large_response
    rw [if_pos h]
  · intro f h hu
    subst hu
    unfold handle_large_response
    rw [if_neg (by omega)]
  · intro h hu
    subst hu
    refine ⟨?_, ?_, ⟨text.take 2950, rfl⟩⟩
    · unfold handle_large_response
      rw [if_neg (by omega)]
    · have h1 : (text.take 2950).length = 2950 := by
        rw [List.length_take]
        omega
      have h2 : TRUNCMARK.length = 25 := rfl
      rw [List.length_append, h1, h2]
      omega

/-- Witness for C8 at concrete short and long outputs. -/
theorem C8_overflow_policy_witness :
    handle_large_response none "short".data = ("short".data, none)
    ∧ handle_large_response (some 7) (List.replicate 3001 'a')
        = (LONGRESPONSE, some 7)
    ∧ (handle_large_response none (List.replicate 3001 'a')
          = ((List.replicate 3001 'a').take 2950 ++ TRUNCMARK, none)
        ∧ ((List.replicate 3001 'a').take 2950 ++ TRUNCMARK).length ≤ 3000
        ∧ TRUNCMARK <:+ ((List.replicate 3001 'a').take 2950 ++ TRUNCMARK)) := by
  have hlen : (List.replicate 3001 'a').length = 3001 := List.length_replicate _ _
  refine ⟨(C8_overflow_policy none "short".data).1 (by decide),
    (C8_overflow_policy (some 7) (List.replicate 3001 'a')).2.1 7
      (by omega) rfl,
    (C8_overflow_policy none (List.replicate 3001 'a')).2.2
      (by omega) rfl⟩

/-- Claim C10: on the thread-reply path, if the formatted conversation ends
with an assistant turn, `handle_message` returns before invoking the model
and posts nothing (the guard at `formatted_messages[-1]["role"] ==
"assistant"`). -/
theorem C10_assistant_last_reply_ignored
    (evalLit : PyStr → Except LitErr PyVal)
    (gw : List FileRef → List ContentPart) (botId : PyStr) (first : SlackMsg)
    (rest : List SlackMsg) (replier firstTxt : PyStr) (config : Config)
    (t : Turn)
    (hparse : parse_config_block evalLit botId first.text
      = .ok (firstTxt, config))
    (hlast : (format_thread gw botId
        (SlackMsg.mk first.user firstTxt first.blocks first.files first.ts
          :: rest) config).getLast? = some t)
    (hrole : t.role = .assistant) :
    handleThreadReply evalLit gw botId (first :: rest) replier
      = .ignored := by
  unfold handleThreadReply
  simp only [hparse]
  by_cases hbm : ¬ cfgTruthy config kIsBotMention
  · rw [if_pos hbm]
  · rw [if_neg hbm]
    by_cases hgate : ¬ cfgTruthy config kIsPublic ∧ some replier ≠ first.user
    · rw [if_pos hgate]
    · rw [if_neg hgate]
      simp only [hlast]
      rw [if_pos hrole]

/-- Claim C9: for a deletion event on a message inside a thread (thread
parent present, not a tombstone), with the thread snapshot ordered by
strictly increasing timestamps and the deleted message sitting at position
`i`, the handler deletes exactly the bot-authored messages at positions at
or after `i`; no message before position `i` and no non-bot message is
deleted. -/
theorem C9_cascade_delete (botId : PyStr) (theta deletedTs : Rat)
    (prevSub : Option PyStr) (msgs : List SlackMsg) (i : Nat)
    (dmsg : SlackMsg) (hsort : msgs.Pairwise (fun a b => a.ts < b.ts))
    (hidx : msgs[i]? = some dmsg) (hts : dmsg.ts = deletedTs)
    (hsub : prevSub ≠ some ("tombstone".data)) :
    handle_message_deleted botId (some theta) prevSub msgs deletedTs
        = ((msgs.drop i).filter (fun m => m.user == some botId)).map
            (fun m => m.ts)
      ∧ (∀ j, j < i → ∀ y, msgs[j]? = some y →
          y.ts ∉ handle_message_deleted botId (some theta) prevSub msgs
            deletedTs)
      ∧ (∀ m', m' ∈ msgs → m'.user ≠ some botId →
          m'.ts ∉ handle_message_deleted botId (some theta) prevSub msgs
            deletedTs) := by
  obtain ⟨hi, hgi⟩ := List.getElem?_eq_some.mp hidx
  have hpg := List.pairwise_iff_getElem.mp hsort
  have hfind : msgs.findIdx? (fun m => deletedTs ≤ m.ts) = some i := by
    apply findIdx?_eq_some_first _ _ i dmsg hidx
    · rw [hts]
      simp
    · intro j hj y hy
      obtain ⟨hjl, hgj⟩ := List.getElem?_eq_some.mp hy
      have hlt := hpg j i hjl hi hj
      rw [hgj, hgi, hts] at hlt
      simp only [decide_eq_false_iff_not]
      exact not_le.mpr hlt
  have heq : handle_message_deleted botId (some theta) prevSub msgs deletedTs
      = ((msgs.drop i).filter (fun m => m.user == some botId)).map
          (fun m => m.ts) := by
    show (if prevSub = some ("tombstone".data) then []
        else match msgs.findIdx? (fun m => deletedTs ≤ m.ts) with
          | none => []
          | some k =>
            ((msgs.drop k).filter (fun m => m.user == some botId)).map
              (fun m => m.ts)) = _
    rw [if_neg hsub]
    simp only [hfind]
  refine ⟨heq, ?_, ?_⟩
  · intro j hj y hy hymem
    rw [heq] at hymem
    obtain ⟨m', hm', hts'⟩ := List.mem_map.mp hymem
    obtain ⟨hdrop, _⟩ := List.mem_filter.mp hm'
    obtain ⟨k, hk⟩ := List.mem_iff_getElem?.mp hdrop
    rw [List.getElem?_drop] at hk
    obtain ⟨hik, hgik⟩ := List.getElem?_eq_some.mp hk
    obtain ⟨hjl, hgj⟩ := List.getElem?_eq_some.mp hy
    have hlt := hpg j (i + k) hjl hik (by omega)
    rw [hgj, hgik] at hlt
    rw [show m'.ts = y.ts from hts'] at hlt
    exact lt_irrefl _ hlt
  · intro m' hmem hneq hin
    rw [heq] at hin
    obtain ⟨m2, hm2, hts2⟩ := List.mem_map.mp hin
    obtain ⟨hdrop, huser⟩ := List.mem_filter.mp hm2
    have huser2 : m2.user = some botId := by simpa using huser
    have hmem2 : m2 ∈ msgs := List.mem_of_mem_drop hdrop
    obtain ⟨a, ha, hga⟩ := List.mem_iff_getElem.mp hmem
    obtain ⟨b, hb, hgb⟩ := List.mem_iff_getElem.mp hmem2
    have htseq : m2.ts = m'.ts := hts2
    rcases Nat.lt_trichotomy a b with hab | hab | hab
    · have hlt := hpg a b ha hb hab
      rw [hga, hgb, htseq] at hlt
      exact lt_irrefl _ hlt
    · subst hab
      have hmm : m' = m2 := by rw [← hga, hgb]
      exact hneq (hmm ▸ huser2)
    · have hlt := hpg b a hb ha hab
      rw [hga, hgb, htseq] at hlt
      exact lt_irrefl _ hlt

/-- Witness for C9: in the five-message thread `msgs5`, deleting the third
message (timestamp 3, user-authored) deletes exactly the bot messages at
timestamps 4 and 5; the bot message at timestamp 2 and the deleted user
message itself are untouched. -/
theorem C9_cascade_delete_witness :
    handle_message_deleted "B".data (some 1) none msgs5 3
        = ((msgs5.drop 2).filter (fun m => m.user == some "B".data)).map
            (fun m => m.ts)
      ∧ (2 : Rat) ∉ handle_message_deleted "B".data (some 1) none msgs5 3
      ∧ (3 : Rat) ∉ handle_message_deleted "B".data (some 1) none msgs5 3 := by
  have h := C9_cascade_delete "B".data 1 3 none msgs5 2
    (SlackMsg.mk (some "U".data) "m".data [] [] 3)
    (by decide) rfl rfl (by decide)
  refine ⟨h.1, ?_, ?_⟩
  · exact h.2.1 1 (by omega) (SlackMsg.mk (some "B".data) "m".data [] [] 2) rfl
  · exact h.2.2 (SlackMsg.mk (some "U".data) "m".data [] [] 3)
      (by decide) (by decide)

/-- Witness for C10: a thread whose last message is the bot's own reply is
ignored. -/
theorem C10_assistant_last_reply_ignored_witness :
    handleThreadReply evalFail gw0 "B".data [msgInitOk, msgBot] "A".data
      = .ignored :=
  C10_assistant_last_reply_ignored evalFail gw0 "B".data msgInitOk [msgBot]
    "A".data "hi".data [(kIsBotMention, PyVal.bool true)]
    (Turn.mk .assistant [ContentPart.text "yo".data]) rfl rfl rfl

end AICafe
